import Mathlib

/-!
Verification of the lazy data-frame engine described by the repository's
specification against its test drivers (src/test2.cpp, src/tests/testIMT.cxx).

The engine itself (TDataFrame.hxx / TDataFrame2.hpp) is not part of the
source tree: only its test drivers are.  The engine's data model, scheduler,
column resolver, merge phase and run state machine are therefore modelled
from the specification, while all fixture data (row counts, column contents,
expected results) is taken directly from the test sources.
-/

set_option autoImplicit false

namespace TDF

/-- Modelled from the spec (§3, missing TDataFrame.hxx): a column value is a
tagged union over the supported scalar column types.  The C++ double values
appearing in the fixtures are exact small integers, which binary64 represents
and compares exactly, so the floating-point scalar is modelled by `ℚ`
(exact arithmetic coincides with IEEE arithmetic on every value the fixtures
produce).  Sequence-valued columns are owned by the external RowSource
collaborator and are not needed by any claim. -/
inductive Value where
  | vDouble (q : ℚ)
  | vInt (n : ℤ)
  | vBool (b : Bool)
  deriving DecidableEq, Repr

/-- Modelled from the spec (§3): the declared type of a column. -/
inductive ColType where
  | tDouble
  | tInt
  | tBool
  deriving DecidableEq, Repr

/-- Runtime type of a value. -/
def Value.typeOf : Value → ColType
  | .vDouble _ => .tDouble
  | .vInt _ => .tInt
  | .vBool _ => .tBool

/-- Modelled from the spec (§7): errors raised during row evaluation. -/
inductive ResolutionError where
  | unknownColumn (name : String)
  | typeMismatch (name : String)
  deriving DecidableEq, Repr

/-- Modelled from the spec (§7): errors raised at graph-build time. -/
inductive ConstructionError where
  | argCountMismatch
  deriving DecidableEq, Repr

/-- Modelled from the spec (§2, §6, missing TDataFrame.hxx): the external
row source.  It exposes a total row count and yields the value of a named,
typed column at a row index, failing with UnknownColumn or TypeMismatch. -/
structure RowSource where
  rowCount : Nat
  columnValue : String → ColType → Nat → Except ResolutionError Value

/-- Modelled from the spec (§3, §4.2, missing TDataFrame.hxx): a node of the
pipeline graph below the shared root.  Filter and derive nodes carry the
user callback (already bound to its typed column list at construction, per
§9), an instrumentation id, and their children; actions are terminal. -/
inductive Node where
  | filter (id : Nat) (cols : List (String × ColType)) (pred : List Value → Bool)
      (children : List Node)
  | derive (id : Nat) (name : String) (cols : List (String × ColType))
      (f : List Value → Value) (children : List Node)
  | action (id : Nat) (cols : List (String × ColType))

/-- Instrumentation record of one node evaluation during a row walk. -/
inductive Event where
  | filterEval (id : Nat) (result : Bool)
  | deriveEval (id : Nat)
  | actionFire (id : Nat) (args : List Value)
  deriving DecidableEq, Repr

/-- Node id an event belongs to. -/
def Event.nodeId : Event → Nat
  | .filterEval i _ => i
  | .deriveEval i => i
  | .actionFire i _ => i

/-- Modelled from the spec (§4.1, missing TDataFrame.hxx): column
resolution.  A name resolves first to a derived column already computed on
the current path for this row (the row-scoped cache `env`), else the
RowSource is consulted; the type of a cached derived value is checked
against the expected type. -/
def resolve (src : RowSource) (row : Nat) (env : List (String × Value))
    (name : String) (ty : ColType) : Except ResolutionError Value :=
  match env.lookup name with
  | some v => if v.typeOf = ty then .ok v else .error (.typeMismatch name)
  | none => src.columnValue name ty row

/-- Resolve a full column list in order. -/
def resolveAll (src : RowSource) (row : Nat) (env : List (String × Value)) :
    List (String × ColType) → Except ResolutionError (List Value)
  | [] => .ok []
  | (n, t) :: rest => do
    let v ← resolve src row env n t
    let vs ← resolveAll src row env rest
    pure (v :: vs)

mutual
/-- Modelled from the spec (§4.3, missing TDataFrame.hxx): depth-first
evaluation of one node for one row.  A filter resolves its inputs, records
one predicate evaluation, and recurses into its children only when the
predicate is true; a derive computes and caches its value for this row and
recurses unconditionally; an action resolves its inputs and fires once.
The returned event list is the evaluation trace of the subtree. -/
def evalNode (src : RowSource) (row : Nat) (env : List (String × Value)) :
    Node → Except ResolutionError (List Event)
  | .filter id cols pred children => do
    let args ← resolveAll src row env cols
    let b := pred args
    let rest ← if b then evalChildren src row env children else pure []
    pure (.filterEval id b :: rest)
  | .derive id name cols f children => do
    let args ← resolveAll src row env cols
    let v := f args
    let rest ← evalChildren src row ((name, v) :: env) children
    pure (.deriveEval id :: rest)
  | .action id cols => do
    let args ← resolveAll src row env cols
    pure [.actionFire id args]

/-- Evaluate the children of a node in construction order. -/
def evalChildren (src : RowSource) (row : Nat) (env : List (String × Value)) :
    List Node → Except ResolutionError (List Event)
  | [] => .ok []
  | n :: ns => do
    let a ← evalNode src row env n
    let b ← evalChildren src row env ns
    pure (a ++ b)
end

/-- Evaluate one row against the whole graph (the children of the shared
root), with an empty derived-column cache, per §4.3. -/
def evalRow (src : RowSource) (row : Nat) (graph : List Node) :
    Except ResolutionError (List Event) :=
  evalChildren src row [] graph

/-- Modelled from the spec (§4.3, §7, missing TDataFrame.hxx): walk the
`count` rows starting at `lo` in row-index order; the first resolution
error aborts the walk. -/
def runRows (src : RowSource) (graph : List Node) : Nat → Nat → Except ResolutionError (List Event)
  | _, 0 => .ok []
  | lo, count + 1 => do
    let a ← evalRow src lo graph
    let b ← runRows src graph (lo + 1) count
    pure (a ++ b)

/-- Modelled from the spec (§2, Glossary): a Run is one full traversal of
all rows against the reachable graph. -/
def runAll (src : RowSource) (graph : List Node) : Except ResolutionError (List Event) :=
  runRows src graph 0 src.rowCount

/-! ## Fixture data, from the test sources

src/test2.cpp FillTree (lines 40–59): 20 rows with b1 = i (double) and
b2 = i*i (C int); src/tests/testIMT.cxx FillTree (lines 54–83): the same
columns over 16000 rows.  b2 is a 32-bit signed int, so the stored value is
the two's-complement wrap of i*i. -/

/-- Two's-complement wrap of an integer into a 32-bit signed int, the type
of branch b2 in both FillTree fixtures. -/
def wrap32 (n : ℤ) : ℤ := (n + 2 ^ 31) % 2 ^ 32 - 2 ^ 31

/-- RowSource with `n` rows holding b1 = i as a double and b2 = i*i as a
32-bit int, exactly as written by FillTree in src/test2.cpp (n = 20) and
src/tests/testIMT.cxx (n = 16000). -/
def fixture (n : Nat) : RowSource where
  rowCount := n
  columnValue := fun name ty i =>
    if name = "b1" then
      if ty = .tDouble then .ok (.vDouble i) else .error (.typeMismatch name)
    else if name = "b2" then
      if ty = .tInt then .ok (.vInt (wrap32 ((i : ℤ) * i))) else .error (.typeMismatch name)
    else .error (.unknownColumn name)

/-- The 20-row tree of src/test2.cpp. -/
def fixture20 : RowSource := fixture 20

/-- The 16000-row tree of src/tests/testIMT.cxx. -/
def fixture16000 : RowSource := fixture 16000

/-! ## Action results

Modelled from the spec (§3, §4.4, missing TDataFrame.hxx): each ActionNode
accumulates a per-execution-context state over the rows that reach it; the
state is a pure function of the sequence of firings recorded for the action
during the walk.  Count counts firings; Collect keeps the fired values in
row order; Min/Max fold a global minimum/maximum; Mean keeps a running sum
and count; Histogram accumulates the multiset of filled entries. -/

/-- Arguments of a firing of action `id`, if this event is one. -/
def Event.fireArgs (id : Nat) : Event → Option (List Value)
  | .actionFire i args => if i = id then some args else none
  | _ => none

/-- Firings of action `id` in a trace, in order. -/
def firings (id : Nat) (evs : List Event) : List (List Value) :=
  evs.filterMap (Event.fireArgs id)

/-- Count action: number of rows that reached the action. -/
def countOf (id : Nat) (evs : List Event) : Nat := (firings id evs).length

/-- Collect action: the first resolved argument of each firing, in row
order. -/
def collectOf (id : Nat) (evs : List Event) : List Value :=
  (firings id evs).filterMap List.head?

/-- Rank of a value's type tag, used to extend min/max to a total order so
that the merge phase is associative; on the homogeneous values of a single
typed column this never discriminates. -/
def Value.tagRank : Value → ℚ
  | .vBool _ => 0
  | .vInt _ => 1
  | .vDouble _ => 2

/-- Numeric content of a value. -/
def Value.toRat : Value → ℚ
  | .vDouble q => q
  | .vInt n => n
  | .vBool b => if b then 1 else 0

/-- Binary minimum of two column values (left-biased on ties); on two ints
or two doubles this is the ordinary minimum. -/
def valMin (a b : Value) : Value :=
  if a.tagRank < b.tagRank then a
  else if b.tagRank < a.tagRank then b
  else if a.toRat ≤ b.toRat then a else b

/-- Binary maximum of two column values (left-biased on ties). -/
def valMax (a b : Value) : Value :=
  if a.tagRank < b.tagRank then b
  else if b.tagRank < a.tagRank then a
  else if b.toRat ≤ a.toRat then a else b

/-- Fold step for an optional running minimum. -/
def minStep (acc : Option Value) (v : Value) : Option Value :=
  match acc with
  | none => some v
  | some w => some (valMin w v)

/-- Fold step for an optional running maximum. -/
def maxStep (acc : Option Value) (v : Value) : Option Value :=
  match acc with
  | none => some v
  | some w => some (valMax w v)

/-- Minimum of a list of values, `none` when empty. -/
def listMin (vs : List Value) : Option Value := vs.foldl minStep none

/-- Maximum of a list of values, `none` when empty. -/
def listMax (vs : List Value) : Option Value := vs.foldl maxStep none

/-- Modelled from the spec (§3, §4.4, missing TDataFrame.hxx): the
per-execution-context accumulator state of one ActionNode, covering every
action variant's running data.  Mean keeps sum and count separately so the
merge can combine them before dividing. -/
structure AccumState where
  count : Nat
  minv : Option Value
  maxv : Option Value
  sum : ℚ
  num : Nat
  histo : Multiset ℚ
  collect : List Value
  deriving DecidableEq

/-- Accumulator state of action `id` after processing a trace. -/
def accumOf (id : Nat) (evs : List Event) : AccumState :=
  { count := countOf id evs
    minv := listMin (collectOf id evs)
    maxv := listMax (collectOf id evs)
    sum := ((collectOf id evs).map Value.toRat).sum
    num := (collectOf id evs).length
    histo := ((collectOf id evs).map Value.toRat : Multiset ℚ)
    collect := collectOf id evs }

/-- Modelled from the spec (§4.4, missing TDataFrame.hxx): the merge of an
absent worker's state: zero count, empty min/max/mean/histogram/collection. -/
def emptyAccum : AccumState :=
  { count := 0, minv := none, maxv := none, sum := 0, num := 0, histo := 0, collect := [] }

/-- Merge of an optional running minimum across workers. -/
def mergeMin : Option Value → Option Value → Option Value
  | none, b => b
  | some a, none => some a
  | some a, some b => some (valMin a b)

/-- Merge of an optional running maximum across workers. -/
def mergeMax : Option Value → Option Value → Option Value
  | none, b => b
  | some a, none => some a
  | some a, some b => some (valMax a b)

/-- Modelled from the spec (§4.4, missing TDataFrame.hxx): the merge phase
for one action: counts sum; min/max take the global min/max; mean combines
the per-thread sums and counts; histograms sum bin-wise; collected lists
concatenate in ascending row-range order. -/
def mergeAccum (a b : AccumState) : AccumState :=
  { count := a.count + b.count
    minv := mergeMin a.minv b.minv
    maxv := mergeMax a.maxv b.maxv
    sum := a.sum + b.sum
    num := a.num + b.num
    histo := a.histo + b.histo
    collect := a.collect ++ b.collect }

/-- Modelled from the spec (§3): an action's finalized results: count,
min, max, mean (sum divided by count, `none` on an empty accumulator),
histogram entries and the collected list. -/
structure ActionResults where
  count : Nat
  minv : Option Value
  maxv : Option Value
  mean : Option ℚ
  histo : Multiset ℚ
  collect : List Value
  deriving DecidableEq

/-- Finalize an accumulator into the action's observable results. -/
def finalize (a : AccumState) : ActionResults :=
  { count := a.count
    minv := a.minv
    maxv := a.maxv
    mean := if a.num = 0 then none else some (a.sum / a.num)
    histo := a.histo
    collect := a.collect }

/-! ## Scheduler: sequential and parallel mode -/

/-- Modelled from the spec (§4.4, missing TDataFrame.hxx): the contiguous
row ranges assigned to `w` workers over `n` rows, in ascending order; every
worker gets `n / w` rows and the last absorbs the remainder.  Each range is
(start, length). -/
def ranges (w n : Nat) : List (Nat × Nat) :=
  match w with
  | 0 => []
  | wp + 1 =>
    (List.range wp).map (fun k => (k * (n / (wp + 1)), n / (wp + 1)))
      ++ [(wp * (n / (wp + 1)), n - wp * (n / (wp + 1)))]

/-- Run the sequential algorithm over each listed (start, length) range
with independent state, collecting the per-range traces in order. -/
def runRanges (src : RowSource) (graph : List Node) :
    List (Nat × Nat) → Except ResolutionError (List (List Event))
  | [] => .ok []
  | r :: rs => do
    let a ← runRows src graph r.1 r.2
    let b ← runRanges src graph rs
    pure (a :: b)

/-- Modelled from the spec (§4.4, missing TDataFrame.hxx): parallel mode
runs the sequential algorithm over each worker's range with independent
state; the per-worker traces in ascending range order. -/
def parRun (w : Nat) (src : RowSource) (graph : List Node) :
    Except ResolutionError (List (List Event)) :=
  runRanges src graph (ranges w src.rowCount)

/-- Results of action `id` under a sequential Run, `none` if the Run
fails. -/
def seqResults (src : RowSource) (graph : List Node) (id : Nat) : Option ActionResults :=
  match runAll src graph with
  | .ok evs => some (finalize (accumOf id evs))
  | .error _ => none

/-- Results of action `id` under a parallel Run with `w` workers: the
per-worker accumulators are merged in ascending row-range order and then
finalized; `none` if the Run fails. -/
def parResults (w : Nat) (src : RowSource) (graph : List Node) (id : Nat) :
    Option ActionResults :=
  match parRun w src graph with
  | .ok parts => some (finalize ((parts.map (accumOf id)).foldr mergeAccum emptyAccum))
  | .error _ => none

/-! ## Pipeline construction

Modelled from the spec (§2, §4.2, missing TDataFrame.hxx): building the
pipeline only constructs graph nodes; a Filter/AddBranch/action call
attaches a new child node at a position in the graph and leaves every
existing node untouched. -/

mutual
/-- Attach `n` as a new child at the position described by `path` (a list
of child indices from the root); an empty path appends at this level. -/
def insertChildren : List Node → List Nat → Node → List Node
  | ns, [], n => ns ++ [n]
  | [], _ :: _, _ => []
  | c :: ns, 0 :: p, n => c.insertChild p n :: ns
  | c :: ns, (i + 1) :: p, n => c :: insertChildren ns (i :: p) n

/-- Attach `n` below this node along `path`. -/
def Node.insertChild : Node → List Nat → Node → Node
  | .filter id cols pred cs, p, n => .filter id cols pred (insertChildren cs p n)
  | .derive id name cols f cs, p, n => .derive id name cols f (insertChildren cs p n)
  | .action id cols, _, _ => .action id cols
end

/-- Modelled from the spec (§4.2, §6, missing TDataFrame.hxx): bind a
callback's positional arguments to column names: an omitted (empty)
explicit list falls back to the pipeline's default-column list; the
callback's expected argument count must equal the chosen list's length,
else a construction-time error is raised. -/
def bindColumns (defaults explicitCols : List String) (argTypes : List ColType) :
    Except ConstructionError (List (String × ColType)) :=
  let names := if explicitCols.isEmpty then defaults else explicitCols
  if names.length = argTypes.length then .ok (names.zip argTypes)
  else .error .argCountMismatch

/-- Modelled from the spec (§4.2, missing TDataFrame.hxx): the Filter
builder: binds the callback's columns (falling back to the default list)
and produces the new FilterNode; a mismatched argument count fails here,
at construction, so no node exists for a Run to fail on. -/
def mkFilter (id : Nat) (defaults explicitCols : List String) (argTypes : List ColType)
    (pred : List Value → Bool) (children : List Node) : Except ConstructionError Node :=
  (bindColumns defaults explicitCols argTypes).map
    (fun cols => .filter id cols pred children)

/-! ## Run session state machine

Modelled from the spec (§3, §4.5, §7, missing TDataFrame.hxx): per
pipeline construction, a Run-session state tracks whether a Run has
occurred: NotRun, Done (holding the finalized trace) or Failed (terminal).
`runsDone` instruments how many full passes over the data were executed. -/

/-- Run status of a pipeline construction. -/
inductive RunState where
  | notRun
  | done (evs : List Event)
  | failed (e : ResolutionError)
  deriving DecidableEq

/-- A pipeline under construction together with its Run status. -/
structure Session where
  src : RowSource
  graph : List Node
  state : RunState
  runsDone : Nat

/-- Construct a fresh pipeline over a source: builds no nodes and
processes no rows. -/
def Session.mk0 (src : RowSource) : Session :=
  { src := src, graph := [], state := .notRun, runsDone := 0 }

/-- Modelled from the spec (§4.2): attaching a filter, derive or action
node only edits the graph; the Run status and pass count are untouched. -/
def Session.attach (s : Session) (path : List Nat) (n : Node) : Session :=
  { s with graph := insertChildren s.graph path n }

/-- Modelled from the spec (§4.5, §7, missing TDataFrame.hxx): an explicit
or implicit Run.  From NotRun it performs exactly one full pass over every
row of the graph reachable from the shared root, ending Done or Failed;
from Done it is a no-op; from Failed it is never silently retried. -/
def Session.doRun (s : Session) : Session :=
  match s.state with
  | .notRun =>
    match runAll s.src s.graph with
    | .ok evs => { s with state := .done evs, runsDone := s.runsDone + 1 }
    | .error e => { s with state := .failed e, runsDone := s.runsDone + 1 }
  | _ => s

/-- Modelled from the spec (§2, §4.5, missing TDataFrame.hxx):
dereferencing a ResultHandle for action `id` triggers the Run if none has
happened, then reads the action's finalized results, or propagates the
failed Run's error. -/
def Session.deref (s : Session) (id : Nat) : Session × Except ResolutionError ActionResults :=
  let s2 := s.doRun
  match s2.state with
  | .done evs => (s2, .ok (finalize (accumOf id evs)))
  | .failed e => (s2, .error e)
  | .notRun => (s2, .error (.unknownColumn ""))

/-- Iterated dereference of the same handle, keeping only the session. -/
def derefIter (id : Nat) (s : Session) : Nat → Session
  | 0 => s
  | k + 1 => derefIter id (s.deref id).1 k

/-! ## Instrumentation counters for the scheduling claims -/

/-- Number of events in a trace belonging to node `id`: evaluations of a
filter's predicate or a derive's function, or firings of an action. -/
def evalsOf (id : Nat) (evs : List Event) : Nat :=
  evs.countP (fun e => e.nodeId == id)

mutual
/-- Occurrences of `id` as a node id in this subtree. -/
def Node.idCount (id : Nat) : Node → Nat
  | .filter i _ _ cs => (if i = id then 1 else 0) + idCountList id cs
  | .derive i _ _ _ cs => (if i = id then 1 else 0) + idCountList id cs
  | .action i _ => if i = id then 1 else 0

/-- Occurrences of `id` as a node id in a forest. -/
def idCountList (id : Nat) : List Node → Nat
  | [] => 0
  | n :: ns => n.idCount id + idCountList id ns
end

/-! ## Concrete pipelines from the test drivers -/

/-- Always-true dummy filter `ok` of src/test2.cpp line 78. -/
def okP : List Value → Bool := fun _ => true

/-- Always-false dummy filter `ko` of src/test2.cpp line 79. -/
def koP : List Value → Bool := fun _ => false

/-- Forked-actions pipeline of src/test2.cpp lines 85–90: one shared
always-true filter with three descendant actions: Foreach over b1,
Foreach over b2, and a Count. -/
def gForked : List Node :=
  [.filter 1 [] okP
    [.action 2 [("b1", .tDouble)],
     .action 3 [("b2", .tInt)],
     .action 4 []]]

/-- Pipeline of src/test2.cpp lines 87 and 92–93: below the shared
always-true filter, an always-false filter with a Foreach taking an empty
column list. -/
def gKo : List Node :=
  [.filter 1 [] okP
    [.filter 5 [] koP
      [.action 6 []]]]

/-- Count below an unconditional always-true filter, as in
src/tests/testIMT.cxx line 105. -/
def gTrueCount : List Node := [.filter 10 [] okP [.action 11 []]]

/-- Count below an unconditional always-false filter, as in
src/tests/testIMT.cxx line 106. -/
def gFalseCount : List Node := [.filter 12 [] koP [.action 13 []]]

/-- Callback of src/test2.cpp line 101: one double argument b1, true when
b1 < 5. -/
def predB1lt5 : List Value → Bool := fun vs =>
  match vs with
  | [.vDouble q] => decide (q < 5)
  | _ => false

/-- Graph built by src/test2.cpp lines 100–102 when construction succeeds:
Filter(b1 < 5) with default column b1, then Filter(ok), then Count. -/
def gDefault : List Node :=
  [.filter 20 [("b1", .tDouble)] predB1lt5
    [.filter 21 [] okP
      [.action 22 []]]]

/-- Callback testing evenness of the int column b2, as in
src/tests/testIMT.cxx line 115. -/
def predEven : List Value → Bool := fun vs =>
  match vs with
  | [.vInt n] => n % 2 == 0
  | _ => false

/-- Filter(b2 even) then Count, the claim C7 pipeline. -/
def gEven : List Node := [.filter 70 [("b2", .tInt)] predEven [.action 71 []]]

/-- A Min/Max action reading b2 directly below the root, as in
src/tests/testIMT.cxx lines 125–126. -/
def gB2 : List Node := [.action 100 [("b2", .tInt)]]

/-- An action requesting a column absent from the fixtures, to drive the
resolution-failure claims. -/
def gBad : List Node := [.action 80 [("nope", .tInt)]]

/-! ## Order properties of the value min/max -/

theorem Value.eq_of_rank_rat {a b : Value} (ht : a.tagRank = b.tagRank)
    (hv : a.toRat = b.toRat) : a = b := by
  cases a <;> cases b <;>
    simp_all [Value.tagRank, Value.toRat] <;>
    first
      | norm_num at ht
      | (rename_i x y; cases x <;> cases y <;> simp_all <;> norm_num at hv)

/-- Lexicographic sort key (type rank, numeric content) underlying the
total order that valMin/valMax select along. -/
def Value.key (v : Value) : Lex (ℚ × ℚ) := toLex (v.tagRank, v.toRat)

theorem Value.key_inj {a b : Value} (h : a.key = b.key) : a = b := by
  have h' : (a.tagRank, a.toRat) = (b.tagRank, b.toRat) := congrArg ofLex h
  exact Value.eq_of_rank_rat (congrArg Prod.fst h') (congrArg Prod.snd h')

theorem valMin_eq_if (a b : Value) :
    valMin a b = if a.key ≤ b.key then a else b := by
  by_cases hk : a.key ≤ b.key
  · rw [if_pos hk]
    rw [Value.key, Value.key, Prod.Lex.le_iff] at hk
    unfold valMin
    split_ifs with h1 h2 h3 <;>
      first
        | rfl
        | (exfalso; rcases hk with h | ⟨he, hv⟩ <;> simp_all <;> linarith)
  · rw [if_neg hk]
    rw [Value.key, Value.key, Prod.Lex.le_iff] at hk
    push_neg at hk
    unfold valMin
    split_ifs with h1 h2 h3 <;>
      first
        | rfl
        | (exfalso; obtain ⟨h, he⟩ := hk
           first
             | linarith
             | (have hv2 := he (by linarith); linarith))

theorem valMax_eq_if (a b : Value) :
    valMax a b = if b.key ≤ a.key then a else b := by
  by_cases hk : b.key ≤ a.key
  · rw [if_pos hk]
    rw [Value.key, Value.key, Prod.Lex.le_iff] at hk
    unfold valMax
    split_ifs with h1 h2 h3 <;>
      first
        | rfl
        | (exfalso; rcases hk with h | ⟨he, hv⟩ <;> simp_all <;> linarith)
  · rw [if_neg hk]
    rw [Value.key, Value.key, Prod.Lex.le_iff] at hk
    push_neg at hk
    unfold valMax
    split_ifs with h1 h2 h3 <;>
      first
        | rfl
        | (exfalso; obtain ⟨h, he⟩ := hk
           first
             | linarith
             | (have hv2 := he (by linarith); linarith))

theorem valMin_assoc (a b c : Value) :
    valMin (valMin a b) c = valMin a (valMin b c) := by
  by_cases h1 : a.key ≤ b.key <;> by_cases h2 : b.key ≤ c.key <;>
    by_cases h3 : a.key ≤ c.key <;>
    first
      | (exact absurd (h1.trans h2) h3)
      | (exact absurd h3 (not_le.mpr ((not_le.mp h2).trans (not_le.mp h1))))
      | simp [valMin_eq_if, h1, h2, h3]

theorem valMax_assoc (a b c : Value) :
    valMax (valMax a b) c = valMax a (valMax b c) := by
  by_cases h1 : b.key ≤ a.key <;> by_cases h2 : c.key ≤ b.key <;>
    by_cases h3 : c.key ≤ a.key <;>
    first
      | (exact absurd (h2.trans h1) h3)
      | (exact absurd h3 (not_le.mpr ((not_le.mp h1).trans (not_le.mp h2))))
      | simp [valMax_eq_if, h1, h2, h3]

theorem valMin_comm (a b : Value) : valMin a b = valMin b a := by
  by_cases h1 : a.key ≤ b.key <;> by_cases h2 : b.key ≤ a.key
  · rw [Value.key_inj (le_antisymm h1 h2)]
  · simp [valMin_eq_if, h1, h2]
  · simp [valMin_eq_if, h1, h2]
  · exact absurd (le_total a.key b.key) (by simp [h1, h2])

theorem valMax_comm (a b : Value) : valMax a b = valMax b a := by
  by_cases h1 : a.key ≤ b.key <;> by_cases h2 : b.key ≤ a.key
  · rw [Value.key_inj (le_antisymm h1 h2)]
  · simp [valMax_eq_if, h1, h2]
  · simp [valMax_eq_if, h1, h2]
  · exact absurd (le_total a.key b.key) (by simp [h1, h2])

theorem mergeMin_assoc (x y z : Option Value) :
    mergeMin (mergeMin x y) z = mergeMin x (mergeMin y z) := by
  cases x <;> cases y <;> cases z <;> simp [mergeMin, valMin_assoc]

theorem mergeMax_assoc (x y z : Option Value) :
    mergeMax (mergeMax x y) z = mergeMax x (mergeMax y z) := by
  cases x <;> cases y <;> cases z <;> simp [mergeMax, valMax_assoc]

theorem mergeMin_comm (x y : Option Value) : mergeMin x y = mergeMin y x := by
  cases x <;> cases y <;> simp [mergeMin, valMin_comm]

theorem mergeMax_comm (x y : Option Value) : mergeMax x y = mergeMax y x := by
  cases x <;> cases y <;> simp [mergeMax, valMax_comm]

/-! ## Trace homomorphisms: a trace split distributes over every
accumulator -/

theorem firings_append (id : Nat) (a b : List Event) :
    firings id (a ++ b) = firings id a ++ firings id b := by
  simp [firings]

theorem countOf_append (id : Nat) (a b : List Event) :
    countOf id (a ++ b) = countOf id a + countOf id b := by
  simp [countOf, firings_append]

theorem collectOf_append (id : Nat) (a b : List Event) :
    collectOf id (a ++ b) = collectOf id a ++ collectOf id b := by
  simp [collectOf, firings_append]

theorem evalsOf_append (id : Nat) (a b : List Event) :
    evalsOf id (a ++ b) = evalsOf id a + evalsOf id b := by
  simp [evalsOf, List.countP_append]

theorem foldl_minStep_some (ys : List Value) : ∀ a : Value,
    ys.foldl minStep (some a) = mergeMin (some a) (listMin ys) := by
  induction ys with
  | nil => intro a; rfl
  | cons y ys ih =>
    intro a
    have hy : listMin (y :: ys) = mergeMin (some y) (listMin ys) := by
      simpa [listMin, minStep] using ih y
    calc ((y :: ys).foldl minStep (some a))
        = ys.foldl minStep (some (valMin a y)) := by simp [minStep]
      _ = mergeMin (some (valMin a y)) (listMin ys) := ih _
      _ = mergeMin (mergeMin (some a) (some y)) (listMin ys) := by simp [mergeMin]
      _ = mergeMin (some a) (mergeMin (some y) (listMin ys)) := mergeMin_assoc _ _ _
      _ = mergeMin (some a) (listMin (y :: ys)) := by rw [hy]

theorem foldl_maxStep_some (ys : List Value) : ∀ a : Value,
    ys.foldl maxStep (some a) = mergeMax (some a) (listMax ys) := by
  induction ys with
  | nil => intro a; rfl
  | cons y ys ih =>
    intro a
    have hy : listMax (y :: ys) = mergeMax (some y) (listMax ys) := by
      simpa [listMax, maxStep] using ih y
    calc ((y :: ys).foldl maxStep (some a))
        = ys.foldl maxStep (some (valMax a y)) := by simp [maxStep]
      _ = mergeMax (some (valMax a y)) (listMax ys) := ih _
      _ = mergeMax (mergeMax (some a) (some y)) (listMax ys) := by simp [mergeMax]
      _ = mergeMax (some a) (mergeMax (some y) (listMax ys)) := mergeMax_assoc _ _ _
      _ = mergeMax (some a) (listMax (y :: ys)) := by rw [hy]

theorem listMin_append (xs ys : List Value) :
    listMin (xs ++ ys) = mergeMin (listMin xs) (listMin ys) := by
  simp only [listMin, List.foldl_append]
  cases hx : List.foldl minStep none xs with
  | none => rfl
  | some a => exact foldl_minStep_some ys a

theorem listMax_append (xs ys : List Value) :
    listMax (xs ++ ys) = mergeMax (listMax xs) (listMax ys) := by
  simp only [listMax, List.foldl_append]
  cases hx : List.foldl maxStep none xs with
  | none => rfl
  | some a => exact foldl_maxStep_some ys a

theorem accumOf_nil (id : Nat) : accumOf id [] = emptyAccum := rfl

theorem accumOf_append (id : Nat) (a b : List Event) :
    accumOf id (a ++ b) = mergeAccum (accumOf id a) (accumOf id b) := by
  simp [accumOf, mergeAccum, collectOf_append, countOf_append,
    listMin_append, listMax_append]

theorem mergeMin_none_right (x : Option Value) : mergeMin x none = x := by
  cases x <;> rfl

theorem mergeMax_none_right (x : Option Value) : mergeMax x none = x := by
  cases x <;> rfl

theorem mergeAccum_empty_right (a : AccumState) : mergeAccum a emptyAccum = a := by
  simp only [mergeAccum, emptyAccum, Nat.add_zero, add_zero, List.append_nil,
    mergeMin_none_right, mergeMax_none_right]

theorem mergeAccum_assoc (a b c : AccumState) :
    mergeAccum (mergeAccum a b) c = mergeAccum a (mergeAccum b c) := by
  simp [mergeAccum, mergeMin_assoc, mergeMax_assoc, Nat.add_assoc, add_assoc]

theorem accumOf_join (id : Nat) (parts : List (List Event)) :
    accumOf id parts.join = (parts.map (accumOf id)).foldr mergeAccum emptyAccum := by
  induction parts with
  | nil => simp [accumOf_nil]
  | cons p ps ih => simp [List.join, accumOf_append, ih]

/-! ## Splitting a sequential walk into contiguous row ranges -/

@[simp] theorem exBind_ok {ε α β : Type} (x : α) (f : α → Except ε β) :
    ((Except.ok x : Except ε α) >>= f) = f x := rfl

@[simp] theorem exBind_error {ε α β : Type} (e : ε) (f : α → Except ε β) :
    ((Except.error e : Except ε α) >>= f) = .error e := rfl

theorem runRows_split (src : RowSource) (g : List Node) (m : Nat) : ∀ (lo n : Nat),
    runRows src g lo (m + n) =
      (runRows src g lo m).bind (fun a =>
        (runRows src g (lo + m) n).map (fun b => a ++ b)) := by
  induction m with
  | zero =>
    intro lo n
    simp only [Nat.zero_add, Nat.add_zero, runRows]
    cases e : runRows src g lo n <;> simp [Except.map, Except.bind]
  | succ m ih =>
    intro lo n
    rw [show m + 1 + n = (m + n) + 1 from by omega]
    rw [runRows, runRows]
    cases he : evalRow src lo g with
    | error e => rfl
    | ok a =>
      rw [ih (lo + 1) n]
      rw [show lo + 1 + m = lo + (m + 1) from by omega]
      cases h1 : runRows src g (lo + 1) m with
      | error e => rfl
      | ok b =>
        cases h2 : runRows src g (lo + (m + 1)) n with
        | error e => rfl
        | ok c =>
          show Except.ok (a ++ (b ++ c)) = Except.ok (a ++ b ++ c)
          rw [List.append_assoc]

theorem parRun_one {src : RowSource} {g : List Node} {evs : List Event}
    (h : runAll src g = .ok evs) : parRun 1 src g = .ok [evs] := by
  rw [runAll] at h
  have hr : ranges 1 src.rowCount = [(0, src.rowCount)] := by simp [ranges]
  rw [parRun, hr]
  simp [runRanges, h]

theorem parRun_four {src : RowSource} {g : List Node} {evs : List Event}
    (h : runAll src g = .ok evs) :
    ∃ e1 e2 e3 e4, parRun 4 src g = .ok [e1, e2, e3, e4] ∧
      e1 ++ (e2 ++ (e3 ++ e4)) = evs := by
  rw [runAll] at h
  set n := src.rowCount with hn
  set c := n / 4 with hc
  have hle : 3 * c ≤ n := by
    have := Nat.div_mul_le_self n 4
    omega
  rw [show n = c + (c + (c + (n - 3 * c))) from by omega] at h
  rw [runRows_split] at h
  cases h1 : runRows src g 0 c with
  | error e => rw [h1] at h; simp [Except.bind] at h
  | ok e1 =>
    rw [h1] at h
    simp only [Except.bind, Nat.zero_add] at h
    rw [runRows_split] at h
    cases h2 : runRows src g c c with
    | error e => rw [h2] at h; simp [Except.bind, Except.map] at h
    | ok e2 =>
      rw [h2] at h
      simp only [Except.bind] at h
      rw [runRows_split] at h
      cases h3 : runRows src g (c + c) c with
      | error e => rw [h3] at h; simp [Except.bind, Except.map] at h
      | ok e3 =>
        rw [h3] at h
        simp only [Except.bind] at h
        cases h4 : runRows src g (c + c + c) (n - 3 * c) with
        | error e => rw [h4] at h; simp [Except.bind, Except.map] at h
        | ok e4 =>
          rw [h4] at h
          simp only [Except.map, Except.bind] at h
          refine ⟨e1, e2, e3, e4, ?_, by injection h⟩
          rw [show c + c = 2 * c from by ring] at h3
          rw [show c + c + c = 3 * c from by ring] at h4
          have hr : ranges 4 src.rowCount = [(0, c), (c, c), (2 * c, c), (3 * c, n - 3 * c)] := by
            have h3r : List.range 3 = [0, 1, 2] := rfl
            simp [ranges, h3r, ← hn, ← hc]
          rw [parRun, hr]
          simp [runRanges, h1, h2, h3, h4]

/-! ## Each node is evaluated at most once per row -/

mutual
/-- During one row walk, a node whose id occurs `k` times in the subtree
contributes at most `k` evaluations to the trace; with unique ids, at most
one. -/
theorem evalsOf_node_le (src : RowSource) (row : Nat) (env : List (String × Value))
    (nd : Node) (evs : List Event) (id : Nat) (h : evalNode src row env nd = .ok evs) :
    evalsOf id evs ≤ nd.idCount id := by
  cases nd with
  | filter i cols pred children =>
    rw [evalNode] at h
    cases hr : resolveAll src row env cols with
    | error e => rw [hr] at h; simp at h
    | ok args =>
      rw [hr] at h
      simp only [exBind_ok] at h
      cases hb : pred args with
      | false =>
        rw [hb] at h
        simp only [Bool.false_eq_true, if_false, exBind_ok] at h
        injection h with h
        subst h
        simp [evalsOf, Node.idCount, Event.nodeId, List.countP_cons]
        all_goals (by_cases hid : i = id <;> simp [hid] <;> try omega)
      | true =>
        rw [hb] at h
        simp only [if_true, if_pos] at h
        cases hc : evalChildren src row env children with
        | error e => rw [hc] at h; simp at h
        | ok rest =>
          rw [hc] at h
          simp only [exBind_ok] at h
          injection h with h
          subst h
          have hrec := evalsOf_children_le src row env children rest id hc
          simp only [evalsOf, Node.idCount, List.countP_cons, Event.nodeId] at *
          by_cases hid : i = id <;> simp [hid] <;> omega
  | derive i name cols f children =>
    rw [evalNode] at h
    cases hr : resolveAll src row env cols with
    | error e => rw [hr] at h; simp at h
    | ok args =>
      rw [hr] at h
      simp only [exBind_ok] at h
      cases hc : evalChildren src row ((name, f args) :: env) children with
      | error e => rw [hc] at h; simp at h
      | ok rest =>
        rw [hc] at h
        simp only [exBind_ok] at h
        injection h with h
        subst h
        have hrec := evalsOf_children_le src row ((name, f args) :: env) children rest id hc
        simp only [evalsOf, Node.idCount, List.countP_cons, Event.nodeId] at *
        by_cases hid : i = id <;> simp [hid] <;> omega
  | action i cols =>
    rw [evalNode] at h
    cases hr : resolveAll src row env cols with
    | error e => rw [hr] at h; simp at h
    | ok args =>
      rw [hr] at h
      simp only [exBind_ok] at h
      injection h with h
      subst h
      simp [evalsOf, Node.idCount, Event.nodeId, List.countP_cons]
      all_goals (by_cases hid : i = id <;> simp [hid] <;> try omega)

/-- List version of evalsOf_node_le over a forest of children. -/
theorem evalsOf_children_le (src : RowSource) (row : Nat) (env : List (String × Value))
    (ns : List Node) (evs : List Event) (id : Nat) (h : evalChildren src row env ns = .ok evs) :
    evalsOf id evs ≤ idCountList id ns := by
  cases ns with
  | nil =>
    rw [evalChildren] at h
    injection h with h
    subst h
    simp [evalsOf, idCountList]
  | cons n ns =>
    rw [evalChildren] at h
    cases h1 : evalNode src row env n with
    | error e => rw [h1] at h; simp at h
    | ok a =>
      rw [h1] at h
      simp only [exBind_ok] at h
      cases h2 : evalChildren src row env ns with
      | error e => rw [h2] at h; simp at h
      | ok b =>
        rw [h2] at h
        simp only [exBind_ok] at h
        injection h with h
        subst h
        have ha := evalsOf_node_le src row env n a id h1
        have hb := evalsOf_children_le src row env ns b id h2
        rw [evalsOf_append]
        simp only [idCountList]
        omega
end

/-! ## Traces of the constant-shape pipelines -/

/-- A filter whose resolved predicate returns false contributes exactly its
own evaluation record: the row never reaches the children. -/
theorem filter_false_trace (src : RowSource) (row : Nat) (env : List (String × Value))
    (id : Nat) (cols : List (String × ColType)) (pred : List Value → Bool)
    (children : List Node) (args : List Value)
    (hr : resolveAll src row env cols = .ok args) (hp : pred args = false) :
    evalNode src row env (.filter id cols pred children) = .ok [.filterEval id false] := by
  rw [evalNode, hr]
  simp only [exBind_ok]
  rw [hp]
  rfl

/-- A source-independent pipeline produces the same trace on every row;
the full walk is that trace repeated once per row. -/
theorem runRows_const (src : RowSource) (g : List Node) (e0 : List Event)
    (he : ∀ row, evalRow src row g = .ok e0) :
    ∀ (k lo : Nat), runRows src g lo k = .ok ((List.replicate k e0).join) := by
  intro k
  induction k with
  | zero => intro lo; rfl
  | succ k ih =>
    intro lo
    rw [runRows, he lo, ih (lo + 1)]
    simp [List.replicate, List.join]

theorem countOf_join_replicate (id : Nat) (k : Nat) (e0 : List Event) :
    countOf id ((List.replicate k e0).join) = k * countOf id e0 := by
  induction k with
  | zero => simp [countOf, firings]
  | succ k ih =>
    simp [List.replicate, List.join, countOf_append, ih]
    ring

theorem evalRow_gTrue (src : RowSource) (row : Nat) :
    evalRow src row gTrueCount = .ok [.filterEval 10 true, .actionFire 11 []] := rfl

theorem evalRow_gFalse (src : RowSource) (row : Nat) :
    evalRow src row gFalseCount = .ok [.filterEval 12 false] := rfl

theorem evalRow_gKo (src : RowSource) (row : Nat) :
    evalRow src row gKo = .ok [.filterEval 1 true, .filterEval 5 false] := rfl

theorem runAll_gTrue (src : RowSource) :
    runAll src gTrueCount =
      .ok ((List.replicate src.rowCount [.filterEval 10 true, .actionFire 11 []]).join) :=
  runRows_const src gTrueCount _ (evalRow_gTrue src) src.rowCount 0

theorem runAll_gFalse (src : RowSource) :
    runAll src gFalseCount =
      .ok ((List.replicate src.rowCount [.filterEval 12 false]).join) :=
  runRows_const src gFalseCount _ (evalRow_gFalse src) src.rowCount 0

theorem runAll_gKo (src : RowSource) :
    runAll src gKo =
      .ok ((List.replicate src.rowCount [.filterEval 1 true, .filterEval 5 false]).join) :=
  runRows_const src gKo _ (evalRow_gKo src) src.rowCount 0

/-- C3: over any RowSource with N rows, a Count below an always-true
filter yields exactly N and a Count below an always-false filter yields
exactly 0. -/
theorem claim_C3 (src : RowSource) :
    (seqResults src gTrueCount 11).map ActionResults.count = some src.rowCount ∧
    (seqResults src gFalseCount 13).map ActionResults.count = some 0 := by
  constructor
  · have h := runAll_gTrue src
    simp [seqResults, h, finalize, accumOf, countOf_join_replicate, countOf,
      firings, Event.fireArgs]
  · have h := runAll_gFalse src
    simp [seqResults, h, finalize, accumOf, countOf_join_replicate, countOf,
      firings, Event.fireArgs]

/-- C9: during a Run a row reaches a node's children only when the filter
predicate returned true for it: a false predicate leaves exactly the
filter's own evaluation in the trace; consequently the empty-column-list
Foreach below the always-false filter of src/test2.cpp lines 92–93 fires
on no row of any source. -/
theorem claim_C9 :
    (∀ (src : RowSource) (row : Nat) (env : List (String × Value)) (id : Nat)
        (cols : List (String × ColType)) (pred : List Value → Bool)
        (children : List Node) (args : List Value),
        resolveAll src row env cols = .ok args → pred args = false →
          evalNode src row env (.filter id cols pred children) = .ok [.filterEval id false]) ∧
    (∀ src : RowSource, (runAll src gKo).toOption.map (countOf 6) = some 0) := by
  refine ⟨fun src row env id cols pred children args hr hp =>
    filter_false_trace src row env id cols pred children args hr hp, fun src => ?_⟩
  rw [runAll_gKo src]
  simp [Except.toOption, countOf_join_replicate, countOf, firings, Event.fireArgs]

/-- Witness for C9 at concrete inputs: the always-false filter of
src/test2.cpp with its empty-column Foreach child, on row 0 of the 20-row
fixture. -/
theorem claim_C9_witness :
    evalNode fixture20 0 [] (.filter 5 [] koP [.action 6 []]) = .ok [.filterEval 5 false] ∧
    (runAll fixture20 gKo).toOption.map (countOf 6) = some 0 :=
  ⟨claim_C9.1 fixture20 0 [] 5 [] koP [.action 6 []] [] rfl rfl, claim_C9.2 fixture20⟩

/-- C7: over the 20-row fixture with b2 = i*i, Filter(b2 even) followed by
Count yields exactly 10. -/
theorem claim_C7 : (seqResults fixture20 gEven 71).map ActionResults.count = some 10 := by
  decide

/-- C2: during one row walk, a node's evaluations in the trace never
exceed its id's occurrences in the subtree (at most one for unique ids,
however many action descendants share the path); in the forked-actions
pipeline of src/test2.cpp the shared filter predicate is evaluated exactly
once per row and 20 times over the 20-row Run, not once per descendant
action. -/
theorem claim_C2 :
    (∀ (src : RowSource) (row : Nat) (env : List (String × Value)) (nd : Node)
        (evs : List Event) (id : Nat),
        evalNode src row env nd = .ok evs → evalsOf id evs ≤ nd.idCount id) ∧
    (∀ (src : RowSource) (row : Nat) (evs : List Event),
        evalRow src row gForked = .ok evs → evalsOf 1 evs = 1) ∧
    ((runAll fixture20 gForked).toOption.map (evalsOf 1) = some 20) := by
  refine ⟨fun src row env nd evs id h => evalsOf_node_le src row env nd evs id h,
    fun src row evs h => ?_, by decide⟩
  rw [evalRow, gForked, evalChildren] at h
  cases h1 : evalNode src row [] (Node.filter 1 [] okP
      [.action 2 [("b1", .tDouble)], .action 3 [("b2", .tInt)], .action 4 []]) with
  | error e => rw [h1] at h; simp at h
  | ok a =>
    rw [h1] at h
    simp only [exBind_ok, evalChildren] at h
    injection h with h
    rw [List.append_nil] at h
    subst h
    have hle := evalsOf_node_le src row [] _ a 1 h1
    simp only [Node.idCount, idCountList] at hle
    norm_num at hle
    rw [evalNode] at h1
    simp only [resolveAll, exBind_ok, okP] at h1
    cases h2 : evalChildren src row []
        [Node.action 2 [("b1", ColType.tDouble)], .action 3 [("b2", .tInt)], .action 4 []] with
    | error e => rw [h2] at h1; simp at h1
    | ok rest =>
      rw [h2] at h1
      simp only [exBind_ok, if_true] at h1
      injection h1 with h1
      subst h1
      simp only [evalsOf, List.countP_cons, Event.nodeId] at hle ⊢
      norm_num at hle ⊢
      exact hle

/-- Witness for C2 at concrete inputs: row 0 of the 20-row fixture against
the forked-actions pipeline. -/
theorem claim_C2_witness :
    evalsOf 1 ((evalNode fixture20 0 [] (.filter 1 [] okP
        [.action 2 [("b1", .tDouble)], .action 3 [("b2", .tInt)],
         .action 4 []])).toOption.getD [])
      ≤ (Node.filter 1 [] okP
          [.action 2 [("b1", .tDouble)], .action 3 [("b2", .tInt)],
           .action 4 []] : Node).idCount 1 ∧
    evalsOf 1 ((evalRow fixture20 0 gForked).toOption.getD []) = 1 :=
  ⟨claim_C2.1 fixture20 0 [] _ _ 1 (by rfl), claim_C2.2.1 fixture20 0 _ (by rfl)⟩

/-- C4: a Run split over 4 workers merges to exactly the sequential (one
worker) results for count, min, max, mean, histogram and collect, with
the sequential collect listed in row-index order; the merge itself is
associative, commutative on every numeric component, and concatenates
collected lists in ascending row-range order. -/
theorem claim_C4 :
    (∀ (src : RowSource) (g : List Node) (id : Nat) (evs : List Event),
        runAll src g = .ok evs →
          parResults 4 src g id = seqResults src g id ∧
          parResults 1 src g id = seqResults src g id ∧
          (seqResults src g id).map ActionResults.collect = some (collectOf id evs)) ∧
    (∀ a b c : AccumState, mergeAccum (mergeAccum a b) c = mergeAccum a (mergeAccum b c)) ∧
    (∀ a b : AccumState,
        (mergeAccum a b).count = (mergeAccum b a).count ∧
        (mergeAccum a b).minv = (mergeAccum b a).minv ∧
        (mergeAccum a b).maxv = (mergeAccum b a).maxv ∧
        (mergeAccum a b).sum = (mergeAccum b a).sum ∧
        (mergeAccum a b).num = (mergeAccum b a).num ∧
        (mergeAccum a b).histo = (mergeAccum b a).histo) ∧
    (∀ a b : AccumState, (mergeAccum a b).collect = a.collect ++ b.collect) := by
  refine ⟨fun src g id evs h => ?_, mergeAccum_assoc,
    fun a b => by simp [mergeAccum, Nat.add_comm, add_comm, mergeMin_comm, mergeMax_comm],
    fun a b => rfl⟩
  have h1 := parRun_one h
  obtain ⟨e1, e2, e3, e4, hp, hj⟩ := parRun_four h
  have hjoin : ([e1, e2, e3, e4] : List (List Event)).join = evs := by
    show e1 ++ (e2 ++ (e3 ++ (e4 ++ []))) = evs
    rw [List.append_nil]
    exact hj
  refine ⟨?_, ?_, ?_⟩
  · simp only [parResults, hp, seqResults, h]
    rw [← accumOf_join, hjoin]
  · simp only [parResults, h1, seqResults, h]
    simp [mergeAccum_empty_right]
  · simp [seqResults, h, finalize, accumOf]

/-- Witness for C4 at concrete inputs: the even-squares pipeline over the
20-row fixture. -/
theorem claim_C4_witness :
    parResults 4 fixture20 gEven 71 = seqResults fixture20 gEven 71 ∧
    parResults 1 fixture20 gEven 71 = seqResults fixture20 gEven 71 ∧
    (seqResults fixture20 gEven 71).map ActionResults.collect =
      some (collectOf 71 ((runAll fixture20 gEven).toOption.getD [])) :=
  claim_C4.1 fixture20 gEven 71 _ (by rfl)

/-- C1: pipeline construction only attaches graph nodes, leaving the Run
status and pass count untouched; the first dereference of a handle before
any Run performs exactly one full Run of the whole graph reachable from
the shared root; a dereference after a Run returns the already-finalized
value with the session unchanged, re-running nothing. -/
theorem claim_C1 :
    (∀ (s : Session) (path : List Nat) (n : Node),
        (s.attach path n).state = s.state ∧ (s.attach path n).runsDone = s.runsDone ∧
        (s.attach path n).src = s.src) ∧
    (∀ (s : Session) (id : Nat) (evs : List Event),
        s.state = .notRun → runAll s.src s.graph = .ok evs →
          s.deref id = ({ s with state := .done evs, runsDone := s.runsDone + 1 },
            .ok (finalize (accumOf id evs)))) ∧
    (∀ (s : Session) (id : Nat) (evs : List Event),
        s.state = .done evs →
          s.deref id = (s, .ok (finalize (accumOf id evs)))) := by
  refine ⟨fun s path n => ⟨rfl, rfl, rfl⟩, fun s id evs hs hr => ?_, fun s id evs hs => ?_⟩
  · simp [Session.deref, Session.doRun, hs, hr]
  · simp [Session.deref, Session.doRun, hs]

/-- Witness for C1 at concrete inputs: the Count-below-true-filter pipeline
over the 20-row fixture, built, dereferenced once from NotRun and once
from Done. -/
theorem claim_C1_witness :
    (((⟨fixture20, gTrueCount, .notRun, 0⟩ : Session).attach [0] (.action 12 [])).state =
        (⟨fixture20, gTrueCount, .notRun, 0⟩ : Session).state ∧
      ((⟨fixture20, gTrueCount, .notRun, 0⟩ : Session).attach [0] (.action 12 [])).runsDone =
        (⟨fixture20, gTrueCount, .notRun, 0⟩ : Session).runsDone ∧
      ((⟨fixture20, gTrueCount, .notRun, 0⟩ : Session).attach [0] (.action 12 [])).src =
        (⟨fixture20, gTrueCount, .notRun, 0⟩ : Session).src) ∧
    (⟨fixture20, gTrueCount, .notRun, 0⟩ : Session).deref 11 =
      (⟨fixture20, gTrueCount,
          .done ((runAll fixture20 gTrueCount).toOption.getD []), 1⟩,
        .ok (finalize (accumOf 11 ((runAll fixture20 gTrueCount).toOption.getD [])))) ∧
    (⟨fixture20, gTrueCount,
        .done ((runAll fixture20 gTrueCount).toOption.getD []), 1⟩ : Session).deref 11 =
      (⟨fixture20, gTrueCount,
          .done ((runAll fixture20 gTrueCount).toOption.getD []), 1⟩,
        .ok (finalize (accumOf 11 ((runAll fixture20 gTrueCount).toOption.getD [])))) :=
  ⟨claim_C1.1 _ [0] _, claim_C1.2.1 _ 11 _ rfl (by rfl), claim_C1.2.2 _ 11 _ rfl⟩

/-- C5: once a pipeline's Run is Done, every further explicit Run call is a
no-op and every re-read of a handle returns the cached finalized value,
identical no matter how many times the handle is read. -/
theorem claim_C5 (s : Session) (evs : List Event) (id : Nat) (h : s.state = .done evs) :
    s.doRun = s ∧
    s.deref id = (s, .ok (finalize (accumOf id evs))) ∧
    (∀ k, derefIter id s k = s) ∧
    (∀ k, (derefIter id s k).deref id = (s, .ok (finalize (accumOf id evs)))) := by
  have hrun : s.doRun = s := by simp [Session.doRun, h]
  have hder : s.deref id = (s, .ok (finalize (accumOf id evs))) := by
    simp [Session.deref, Session.doRun, h]
  have hiter : ∀ k, derefIter id s k = s := by
    intro k
    induction k with
    | zero => rfl
    | succ k ih => rw [derefIter, hder]; exact ih
  exact ⟨hrun, hder, hiter, fun k => by rw [hiter k]; exact hder⟩

/-- Witness for C5 at concrete inputs: a Done session over the 20-row
fixture, re-run once and re-read three times. -/
theorem claim_C5_witness :
    (⟨fixture20, gTrueCount, .done [], 1⟩ : Session).doRun =
      (⟨fixture20, gTrueCount, .done [], 1⟩ : Session) ∧
    (⟨fixture20, gTrueCount, .done [], 1⟩ : Session).deref 11 =
      (⟨fixture20, gTrueCount, .done [], 1⟩, .ok (finalize (accumOf 11 []))) ∧
    derefIter 11 (⟨fixture20, gTrueCount, .done [], 1⟩ : Session) 3 =
      (⟨fixture20, gTrueCount, .done [], 1⟩ : Session) ∧
    (derefIter 11 (⟨fixture20, gTrueCount, .done [], 1⟩ : Session) 3).deref 11 =
      (⟨fixture20, gTrueCount, .done [], 1⟩, .ok (finalize (accumOf 11 []))) :=
  ⟨(claim_C5 _ [] 11 rfl).1, (claim_C5 _ [] 11 rfl).2.1,
    (claim_C5 _ [] 11 rfl).2.2.1 3, (claim_C5 _ [] 11 rfl).2.2.2 3⟩

/-- C8: a resolution error at a row aborts the remainder of the walk; a
failing Run moves the session to the terminal Failed state; every handle
dereference in that state propagates the stored error without re-running,
and an explicit Run call in that state is not retried. -/
theorem claim_C8 :
    (∀ (src : RowSource) (g : List Node) (lo k : Nat) (e : ResolutionError),
        evalRow src lo g = .error e → runRows src g lo (k + 1) = .error e) ∧
    (∀ (s : Session) (e : ResolutionError), s.state = .notRun →
        runAll s.src s.graph = .error e →
          s.doRun = { s with state := .failed e, runsDone := s.runsDone + 1 }) ∧
    (∀ (s : Session) (e : ResolutionError) (id : Nat), s.state = .failed e →
        s.deref id = (s, .error e)) ∧
    (∀ (s : Session) (e : ResolutionError), s.state = .failed e → s.doRun = s) := by
  refine ⟨fun src g lo k e h => ?_, fun s e hs hr => ?_, fun s e id hs => ?_,
    fun s e hs => ?_⟩
  · rw [runRows, h]; rfl
  · simp [Session.doRun, hs, hr]
  · simp [Session.deref, Session.doRun, hs]
  · simp [Session.doRun, hs]

/-- Witness for C8 at concrete inputs: the unknown-column pipeline over the
20-row fixture fails on row 0, the session enters Failed, propagates the
error on dereference and is never retried. -/
theorem claim_C8_witness :
    runRows fixture20 gBad 0 (19 + 1) = .error (.unknownColumn "nope") ∧
    (⟨fixture20, gBad, .notRun, 0⟩ : Session).doRun =
      ⟨fixture20, gBad, .failed (.unknownColumn "nope"), 1⟩ ∧
    (⟨fixture20, gBad, .failed (.unknownColumn "nope"), 1⟩ : Session).deref 80 =
      (⟨fixture20, gBad, .failed (.unknownColumn "nope"), 1⟩,
        .error (.unknownColumn "nope")) ∧
    (⟨fixture20, gBad, .failed (.unknownColumn "nope"), 1⟩ : Session).doRun =
      ⟨fixture20, gBad, .failed (.unknownColumn "nope"), 1⟩ :=
  ⟨claim_C8.1 fixture20 gBad 0 19 _ rfl, claim_C8.2.1 _ _ rfl (by rfl),
    claim_C8.2.2.1 _ _ 80 rfl, claim_C8.2.2.2 _ _ rfl⟩

/-- C6: with a default-column list, a Filter call omitting column names
binds the defaults positionally to the callback's arguments; a callback
whose argument count differs from the default-list length fails at
construction (the builder returns the error and produces no node, so
nothing can fail at Run); with default columns b1 over the 20-row fixture,
the one-argument callback b1 < 5 of src/test2.cpp lines 100–102 builds the
expected node and its Count yields 5. -/
theorem claim_C6 :
    (∀ (defaults : List String) (argTypes : List ColType) (pred : List Value → Bool)
        (children : List Node) (id : Nat), argTypes.length ≠ defaults.length →
        mkFilter id defaults [] argTypes pred children = .error .argCountMismatch) ∧
    (∀ (defaults : List String) (argTypes : List ColType) (pred : List Value → Bool)
        (children : List Node) (id : Nat), argTypes.length = defaults.length →
        mkFilter id defaults [] argTypes pred children =
          .ok (.filter id (defaults.zip argTypes) pred children)) ∧
    (mkFilter 20 ["b1"] [] [.tDouble] predB1lt5 [.filter 21 [] okP [.action 22 []]] =
      .ok (.filter 20 [("b1", .tDouble)] predB1lt5 [.filter 21 [] okP [.action 22 []]])) ∧
    ((seqResults fixture20 gDefault 22).map ActionResults.count = some 5) := by
  refine ⟨fun defaults argTypes pred children id h => ?_,
    fun defaults argTypes pred children id h => ?_, rfl, by decide⟩
  · simp [mkFilter, bindColumns, Ne.symm h, Except.map]
  · simp [mkFilter, bindColumns, h.symm, Except.map]

/-- Witness for C6 at concrete inputs: a two-argument callback against the
one-entry default list fails at construction; the one-argument callback
builds the node. -/
theorem claim_C6_witness :
    mkFilter 30 ["b1"] [] [.tDouble, .tInt] predB1lt5 [] = .error .argCountMismatch ∧
    mkFilter 31 ["b1"] [] [.tDouble] predB1lt5 [] =
      .ok (.filter 31 [("b1", .tDouble)] predB1lt5 []) :=
  ⟨claim_C6.1 ["b1"] [.tDouble, .tInt] predB1lt5 [] 30 (by decide),
    claim_C6.2.1 ["b1"] [.tDouble] predB1lt5 [] 31 (by decide)⟩

/-! ## Min and Max of the squares column -/

theorem wrap32_id {n : ℤ} (h0 : 0 ≤ n) (h1 : n < 2 ^ 31) : wrap32 n = n := by
  rw [wrap32, Int.emod_eq_of_lt (by omega) (by omega)]
  omega

theorem sq_fits (i : Nat) (h : i < 16000) : (i : ℤ) * i < 2 ^ 31 := by
  have hi : (i : ℤ) ≤ 15999 := by exact_mod_cast Nat.lt_succ_iff.mp h
  have h0 : (0 : ℤ) ≤ i := Int.ofNat_nonneg i
  nlinarith

/-- Value of column b2 as stored for row i: the 32-bit wrap of i*i. -/
def sqWrapVal (i : Nat) : Value := .vInt (wrap32 ((i : ℤ) * i))

/-- Value i*i as an unwrapped integer. -/
def sqVal (i : Nat) : Value := .vInt ((i : ℤ) * i)

/-- Trace event of the b2-reading action for row i. -/
def sqEvent (i : Nat) : Event := .actionFire 100 [sqWrapVal i]

theorem evalRow_gB2 (n lo : Nat) :
    evalRow (fixture n) lo gB2 = .ok [sqEvent lo] := rfl

theorem runRows_gB2 (n : Nat) : ∀ (k lo : Nat),
    runRows (fixture n) gB2 lo k = .ok ((List.range' lo k).map sqEvent) := by
  intro k
  induction k with
  | zero => intro lo; rfl
  | succ k ih =>
    intro lo
    rw [runRows, evalRow_gB2 n lo, ih (lo + 1), List.range'_succ lo k 1]
    rfl

theorem collectOf_map_fire (id : Nat) {α : Type} (l : List α) (g : α → Value) :
    collectOf id (l.map fun i => Event.actionFire id [g i]) = l.map g := by
  induction l with
  | nil => rfl
  | cons x xs ih =>
    simp only [collectOf, firings] at ih
    rw [List.filterMap_map] at ih
    simp [collectOf, firings, Event.fireArgs, List.filterMap_cons, ih]

theorem valMin_int (a b : ℤ) : valMin (.vInt a) (.vInt b) = .vInt (min a b) := by
  rw [valMin]
  simp only [Value.tagRank, Value.toRat, lt_irrefl, if_false, Int.cast_le]
  by_cases h : a ≤ b
  · rw [if_pos (by exact_mod_cast h), min_eq_left h]
  · rw [if_neg (by exact_mod_cast h), min_eq_right (le_of_not_le h)]

theorem valMax_int (a b : ℤ) : valMax (.vInt a) (.vInt b) = .vInt (max a b) := by
  rw [valMax]
  simp only [Value.tagRank, Value.toRat, lt_irrefl, if_false, Int.cast_le]
  by_cases h : b ≤ a
  · rw [if_pos (by exact_mod_cast h), max_eq_left h]
  · rw [if_neg (by exact_mod_cast h), max_eq_right (le_of_not_le h)]

theorem minmax_squares : ∀ k : Nat,
    listMin ((List.range' 0 (k + 1)).map sqVal) = some (.vInt 0) ∧
    listMax ((List.range' 0 (k + 1)).map sqVal) = some (.vInt ((k : ℤ) * k)) := by
  intro k
  induction k with
  | zero =>
    constructor <;> simp [listMin, listMax, minStep, maxStep, sqVal]
  | succ k ih =>
    obtain ⟨ihMin, ihMax⟩ := ih
    rw [List.range'_1_concat 0 (k + 1), List.map_append]
    constructor
    · rw [listMin_append, ihMin]
      show some (valMin (.vInt 0) (sqVal (0 + (k + 1)))) = _
      rw [show (0 + (k + 1)) = k + 1 from by omega]
      rw [sqVal, valMin_int]
      have h0 : (0 : ℤ) ≤ ((k + 1 : ℕ) : ℤ) * ((k + 1 : ℕ) : ℤ) := by positivity
      rw [min_eq_left h0]
    · rw [listMax_append, ihMax]
      show some (valMax (.vInt ((k : ℤ) * k)) (sqVal (0 + (k + 1)))) = _
      rw [show (0 + (k + 1)) = k + 1 from by omega]
      rw [sqVal, valMax_int]
      have hle : (k : ℤ) * k ≤ ((k + 1 : ℕ) : ℤ) * ((k + 1 : ℕ) : ℤ) := by
        push_cast
        nlinarith [Int.ofNat_nonneg k]
      rw [max_eq_right hle]

theorem seqResults_ok {src : RowSource} {g : List Node} {id : Nat} {evs : List Event}
    (h : runAll src g = .ok evs) :
    seqResults src g id = some (finalize (accumOf id evs)) := by
  unfold seqResults
  rw [h]

theorem finalize_minv (a : AccumState) : (finalize a).minv = a.minv := rfl

theorem finalize_maxv (a : AccumState) : (finalize a).maxv = a.maxv := rfl

theorem accumOf_minv (id : Nat) (evs : List Event) :
    (accumOf id evs).minv = listMin (collectOf id evs) := rfl

theorem accumOf_maxv (id : Nat) (evs : List Event) :
    (accumOf id evs).maxv = listMax (collectOf id evs) := rfl

/-- C10: every value i*i stored in the 32-bit int column b2 of the
16000-row fixture fits without overflow (the wrap is the identity on it),
and the engine's Min and Max over b2 yield exactly 0 and
255968001 = 15999 * 15999. -/
theorem claim_C10 :
    (∀ i : Nat, i < 16000 → wrap32 ((i : ℤ) * i) = (i : ℤ) * i) ∧
    (seqResults fixture16000 gB2 100).map (fun r => (r.minv, r.maxv)) =
      some (some (.vInt 0), some (.vInt 255968001)) := by
  refine ⟨fun i h => wrap32_id (by positivity) (sq_fits i h), ?_⟩
  have hrun : runAll fixture16000 gB2 = .ok ((List.range' 0 16000).map sqEvent) :=
    runRows_gB2 16000 16000 0
  have hcol : collectOf 100 ((List.range' 0 16000).map sqEvent) =
      (List.range' 0 16000).map sqWrapVal := by
    simpa [sqEvent] using collectOf_map_fire 100 (List.range' 0 16000) sqWrapVal
  have hmap : (List.range' 0 16000).map sqWrapVal = (List.range' 0 16000).map sqVal := by
    apply List.map_congr_left
    intro i hi
    have hlt : i < 16000 := by
      have := List.mem_range'_1.mp hi
      omega
    have h0 : (0 : ℤ) ≤ (i : ℤ) * i := by positivity
    simp [sqWrapVal, sqVal, wrap32_id h0 (sq_fits i hlt)]
  have hminmax := minmax_squares 15999
  rw [show (16000 : ℕ) = 15999 + 1 from by norm_num] at hcol hmap hrun
  rw [seqResults_ok hrun]
  simp only [Option.map_some', finalize_minv, finalize_maxv, accumOf_minv, accumOf_maxv]
  rw [hcol, hmap, hminmax.1, hminmax.2]
  norm_num

/-- Witness for C10 at a concrete input: row 7 stores 49 unwrapped. -/
theorem claim_C10_witness :
    wrap32 (((7 : ℕ) : ℤ) * ((7 : ℕ) : ℤ)) = ((7 : ℕ) : ℤ) * ((7 : ℕ) : ℤ) :=
  claim_C10.1 7 (by norm_num)

end TDF
